import Mathlib

/-!
Shallow embedding of `src/quandry.py`.

The repository implements a small embedded query language:

* `Query` (lines 4-54): a chainable, lazily-materializing query view.  A node
  holds an optional own result (`_result`), a parent link (`_parent`), and a
  cache of already-yielded elements (`_cached_result`).  The `result` property
  reads through to the nearest ancestor whose own result is set.  `__iter__`
  replays the cache when it is non-empty, and otherwise walks `self.result`,
  appending each yielded element to the cache.
* `queryable` (lines 107-125): invoking a registered operation on a node
  builds a new node whose parent is the current node and whose own result is
  the operation's output sequence.
* `filter` (lines 128-150) and `exclude` (lines 153-172): each wraps the
  current result in one generator layer `(r for r in result if <test>)` per
  argument; the argument loops run eagerly when the operation is invoked, the
  generators themselves are lazy.
* `Value` (lines 57-104): a deferred comparison builder.  An attribute access
  returns a new `Value` whose accessor composes the parent accessor with one
  more `getattr` step; a comparison operator turns a `Value` and a literal
  into a predicate evaluated only when applied to a concrete element.

Elements of the embedded collections are plain values (never functions), and
bound sources are finite sequences, so streams are modelled as `List`s and
nested generator layers as successive `List.filter`s.  Fallible Python calls
(`getattr` on a missing attribute, comparisons between incompatible objects,
`NotImplementedError` on non-callable predicate arguments) are modelled with
`Except PyError`.
-/

namespace Quandry

variable {α : Type}

/-- Python-level exceptions raised by the embedded code: `NotImplementedError`
from `filter`/`exclude` on a non-callable argument where a callable is
required, `AttributeError` from `getattr` on a missing attribute, and
`TypeError` from an order comparison between incomparable objects. -/
inductive PyError where
  | notImplementedError
  | attributeError (name : String)
  | typeError
deriving DecidableEq

/-- A positional or named argument passed to `filter` / `exclude`: either a
callable predicate or a bare non-callable literal value.  This mirrors the
`callable(value)` test in the source. -/
inductive PArg (α : Type) where
  | callable (p : α → Bool)
  | literal (v : α)

/-- The test `r != value` used by `exclude` (line 164) for every positional
argument.  Elements of the embedded collections are plain values of type `α`
and never functions, so when the argument is a callable the comparison is a
cross-type Python `!=`, which is true (the element is kept); when the argument
is a literal it is value inequality. -/
def PArg.neTest [DecidableEq α] (a : PArg α) (r : α) : Bool :=
  match a with
  | .callable _ => true
  | .literal v => decide (r ≠ v)

/-- The `for key, value in kwargs.items():` loop shared verbatim by `filter`
(lines 144-148) and `exclude` (lines 166-170): each named argument must be
callable — else `NotImplementedError` — and contributes one generator layer
`(r for r in result if value(r))`, in insertion order. -/
def kwargLayers : List (String × PArg α) → Except PyError (List (α → Bool))
  | [] => .ok []
  | (_, .callable p) :: kwargs => (kwargLayers kwargs).map (fun ps => p :: ps)
  | (_, .literal _) :: _ => .error .notImplementedError

/-- `filter` (src/quandry.py lines 128-150): the `for value in args:` and
`for key, value in kwargs.items():` loops run eagerly when the operation is
invoked, raising `NotImplementedError` at the first non-callable argument and
otherwise wrapping `result` in one lazy generator layer
`(r for r in result if value(r))` per argument — positional arguments first,
then named arguments in insertion order.  The returned list records the
predicate of each generator layer in wrapping order (innermost first). -/
def filterLayers : List (PArg α) → List (String × PArg α) → Except PyError (List (α → Bool))
  | [], kwargs => kwargLayers kwargs
  | .callable p :: args, kwargs => (filterLayers args kwargs).map (fun ps => p :: ps)
  | .literal _ :: _, _ => .error .notImplementedError

/-- `exclude` (src/quandry.py lines 153-172): every positional argument —
callable or not — wraps `result` in the layer `(r for r in result if
r != value)`; named arguments must be callable (else `NotImplementedError`)
and wrap `result` in `(r for r in result if value(r))`, exactly as in
`filter`. -/
def excludeLayers [DecidableEq α] : List (PArg α) → List (String × PArg α) → Except PyError (List (α → Bool))
  | [], kwargs => kwargLayers kwargs
  | a :: args, kwargs => (excludeLayers args kwargs).map (fun ps => a.neTest :: ps)

/-- Applying the stored generator layers of a node to a materialized parent
sequence.  Nested one-shot generators `(r for r in result if p r)` over a
finite sequence yield exactly the successive `List.filter`s, innermost
(first-wrapped) layer first — the literal translation of the repeated
`result = (r for r in result if ...)` re-binding in `filter`/`exclude`. -/
def applyLayers (layers : List (α → Bool)) (l : List α) : List α :=
  layers.foldl (fun acc p => acc.filter p) l

/-- An element passes the whole stack of generator layers iff every layer's
predicate accepts it. -/
def admits (layers : List (α → Bool)) (r : α) : Bool :=
  layers.all (fun p => p r)

/-- The reachable states of a `Query` chain (src/quandry.py lines 20-54).
A `root` is a node directly bound to a source sequence by `__call__`
(line 42-45).  A `node` is created by `queryable`'s `func_wrapper`
(lines 117-125): its parent is the node the operation was called on and its
own result is the operation's output — a stack of generator layers drawing
from the parent's iteration.  Every constructor carries the node's
`_cached_result`, which starts empty (`__init__`, line 22). -/
inductive Query (α : Type) where
  | root (source : List α) (cache : List α)
  | node (parent : Query α) (layers : List (α → Bool)) (cache : List α)

/-- The node's own `_cached_result`. -/
def Query.cache : Query α → List α
  | .root _ c => c
  | .node _ _ c => c

/-- `queryable`-wrapped `filter` invoked on a node: validate the arguments
eagerly (the source's `for` loops over `args`/`kwargs` run at call time) and
build the new child node with empty cache whose own result is the layered
generator stack over the parent. -/
def Query.filterOp (q : Query α) (args : List (PArg α)) (kwargs : List (String × PArg α)) :
    Except PyError (Query α) :=
  (filterLayers args kwargs).map (fun ps => Query.node q ps [])

/-- `queryable`-wrapped `exclude` invoked on a node, analogous to
`Query.filterOp`. -/
def Query.excludeOp [DecidableEq α] (q : Query α) (args : List (PArg α))
    (kwargs : List (String × PArg α)) : Except PyError (Query α) :=
  (excludeLayers args kwargs).map (fun ps => Query.node q ps [])

/-- One complete pass of `Query.__iter__` (src/quandry.py lines 47-54),
returning the yielded sequence and the updated chain state.

* Cache non-empty: yield the cached elements and stop; no state changes and
  the underlying result is never touched (`if self._cached_result:` branch).
* Cache empty: walk `self.result`, appending every yielded element to the
  cache.  For a root this walks the bound source afresh; for a derived node
  this drains the stored generator stack, which pulls every element of the
  parent through the parent's own `__iter__` (hence the recursive full pass
  on the parent) and keeps those admitted by the layers.

A derived node's stored generator is one-shot, but it is only ever advanced
while that node's cache is empty: any element it yields is immediately
cached, so a node whose completed pass yielded nothing is exactly a node
whose layered stack over the (now cached) parent output is empty — walking
that stack again extensionally reproduces the exhausted generator: it yields
nothing and mutates nothing. -/
def Query.iterate : Query α → List α × Query α
  | .root s c =>
    if c.isEmpty then (s, .root s s) else (c, .root s c)
  | .node p layers c =>
    if c.isEmpty then
      (applyLayers layers (Query.iterate p).1,
       .node (Query.iterate p).2 layers (applyLayers layers (Query.iterate p).1))
    else (c, .node p layers c)

/-- Pulling up to `n` elements from the filtered stream over `full`:
returns the (at most `n`) admitted elements together with the number of
elements of `full` the generator consumed to produce them.  The caller stops
after the `n`-th successful `next()`; if fewer than `n` elements are
admitted, the final `next()` drains `full` completely before raising
`StopIteration`. -/
def splitAdmit (adm : α → Bool) : List α → Nat → List α × Nat
  | _, 0 => ([], 0)
  | [], _ + 1 => ([], 0)
  | x :: xs, n + 1 =>
    if adm x then
      ((splitAdmit adm xs n).1.cons x, (splitAdmit adm xs n).2 + 1)
    else
      ((splitAdmit adm xs (n + 1)).1, (splitAdmit adm xs (n + 1)).2 + 1)

/-- The sequence a fresh complete pass of `__iter__` would yield in the
current state: the cache if non-empty, otherwise the node's underlying
result (the source for a root, the layered stack over the parent's own pass
for a derived node). -/
def Query.passList : Query α → List α
  | .root s c => if c.isEmpty then s else c
  | .node p layers c => if c.isEmpty then applyLayers layers (Query.passList p) else c

/-- A partial pass of `Query.__iter__`: the caller performs at most `n`
successful `next()` calls and then abandons the iterator.  Cache non-empty:
the cached prefix is replayed, nothing changes.  Cache empty: the yielded
elements (a prefix of the full pass) are appended to the node's cache, and
for a derived node the parent is itself partially pulled by however many
elements the generator stack consumed. -/
def Query.pull : Query α → Nat → List α × Query α
  | .root s c, n =>
    if c.isEmpty then (s.take n, .root s (s.take n)) else (c.take n, .root s c)
  | .node p layers c, n =>
    if c.isEmpty then
      ((splitAdmit (admits layers) (Query.passList p) n).1,
       .node (Query.pull p (splitAdmit (admits layers) (Query.passList p) n).2).2 layers
         (splitAdmit (admits layers) (Query.passList p) n).1)
    else (c.take n, .node p layers c)

/-- Every cache along the chain is empty: the state of a freshly built chain
that has never been iterated ("first materialization"). -/
def Query.cachesEmpty : Query α → Bool
  | .root _ c => c.isEmpty
  | .node p _ c => c.isEmpty && p.cachesEmpty

/-- The sequence a node yields on first materialization of a fresh chain,
computed from the sources alone. -/
def Query.freshPass : Query α → List α
  | .root s _ => s
  | .node p layers _ => applyLayers layers (Query.freshPass p)

/-- The chain with every node's cache set to that node's own first-pass
output: the expected state after fully iterating the leaf of a fresh
chain. -/
def Query.materialized : Query α → Query α
  | .root s _ => .root s s
  | .node p layers _ =>
      .node (Query.materialized p) layers (applyLayers layers (Query.freshPass p))

/-- The `_result` / `_parent` linkage of `Query` nodes needed to state the
read-through resolution of the `result` property (src/quandry.py
lines 20-31) including *unbound* nodes: `Query.__init__` leaves `_result =
None`, and `__call__` or `queryable` set it.  `orphan` is a node with no
parent; `child` has a parent link. -/
inductive QueryLink (α : Type) where
  | orphan (ownResult : Option (List α))
  | child (ownResult : Option (List α)) (parent : QueryLink α)

/-- The `result` property (lines 26-31): return the node's own `_result`,
falling back to the parent's `result` when the own result is `None` and a
parent exists. -/
def QueryLink.result : QueryLink α → Option (List α)
  | .orphan r => r
  | .child r p =>
    match r with
    | some v => some v
    | none => QueryLink.result p

/-- Some node on the ancestor-or-self chain has its own `_result` set. -/
def QueryLink.anyBound : QueryLink α → Bool
  | .orphan r => r.isSome
  | .child r p => r.isSome || QueryLink.anyBound p

/-- The universe of Python objects the repository's examples query over:
integers and instances with named attributes (such as the `Bleh` class,
whose single attribute holds another object). -/
inductive Obj where
  | int (n : Int)
  | inst (attrs : List (String × Obj))

/-- Python `getattr(obj, name)`: look the attribute up on an instance,
raising `AttributeError` when it is missing; the integers of the embedded
universe expose no attributes. -/
def Obj.getattr (o : Obj) (name : String) : Except PyError Obj :=
  match o with
  | .int _ => .error (.attributeError name)
  | .inst attrs =>
    match attrs.lookup name with
    | some v => .ok v
    | none => .error (.attributeError name)

/-- Python `x > other` on the embedded universe: integer comparison, and a
`TypeError` when either side is not an integer (the example classes define
no ordering). -/
def Obj.gtObj : Obj → Obj → Except PyError Bool
  | .int a, .int b => .ok (decide (a > b))
  | _, _ => .error .typeError

/-- Python `x < other`, analogous to `Obj.gtObj`. -/
def Obj.ltObj : Obj → Obj → Except PyError Bool
  | .int a, .int b => .ok (decide (a < b))
  | _, _ => .error .typeError

/-- `Value` (src/quandry.py lines 57-104): a deferred comparison expression.
The single field is the `_getattr` accessor — `none` for the bare
placeholder `Value()` (compare the element itself), or a composed chain of
attribute lookups.  Accessors may fail with `AttributeError` when finally
applied to a concrete object. -/
structure Value where
  acc : Option (Obj → Except PyError Obj)

/-- `Value._check_attr` (lines 76-81): wrap a comparison `comp` so that,
when the `Value` has an accessor, the accessor is applied to the element
first (errors propagating) and `comp` runs on the resolved object; with no
accessor, `comp` runs on the element directly. -/
def Value.checkAttr (self : Value) (comp : Obj → Except PyError Bool) :
    Obj → Except PyError Bool :=
  match self.acc with
  | some g => fun x => (g x).bind comp
  | none => comp

/-- `Value.__gt__` (lines 94-97): the predicate `fun x => x > other`,
routed through `_check_attr`. -/
def Value.gt (self : Value) (other : Obj) : Obj → Except PyError Bool :=
  self.checkAttr (fun x => Obj.gtObj x other)

/-- `Value.__lt__` (lines 89-92), analogous to `Value.gt`. -/
def Value.lt (self : Value) (other : Obj) : Obj → Except PyError Bool :=
  self.checkAttr (fun x => Obj.ltObj x other)

/-- `Value.__getattr__` (lines 99-104): attribute access on a `Value`
returns a *new* `Value` whose accessor first applies the parent accessor
(when present) and then looks the named attribute up on the resolved
object.  The parent `Value` is not mutated. -/
def Value.getattr (self : Value) (name : String) : Value :=
  ⟨some (fun obj =>
    match self.acc with
    | some g => (g obj).bind (fun o => Obj.getattr o name)
    | none => Obj.getattr obj name)⟩

/-- Apply a `Value`'s accessor to a concrete element: identity for the bare
placeholder. -/
def Value.applyAcc (self : Value) (x : Obj) : Except PyError Obj :=
  match self.acc with
  | some g => g x
  | none => .ok x

/-- The expression `value.a1.a2…ak` for the attribute chain
`names = [a1, …, ak]`, built from the bare placeholder `Value()` by
repeated attribute access. -/
def chainValue (names : List String) : Value :=
  names.foldl Value.getattr ⟨none⟩

/-- Sequential attribute resolution on a concrete object: apply each lookup
of the chain in order starting from `x`, propagating the first
`AttributeError`. -/
def resolveChain (x : Obj) (names : List String) : Except PyError Obj :=
  names.foldlM Obj.getattr x

/-- Materializing the filter generator `(r for r in result if p r)` over a
finite sequence when the predicate itself may raise: elements are tested in
order and the first exception aborts the whole iteration, propagating to
the caller uncaught. -/
def iterFiltered : List Obj → (Obj → Except PyError Bool) → Except PyError (List Obj)
  | [], _ => .ok []
  | x :: xs, p =>
    (p x).bind (fun b =>
      (iterFiltered xs p).map (fun rest => if b then x :: rest else rest))

/-! ### Helper lemmas -/

theorem filterExt (l : List α) (p q : α → Bool) (h : ∀ a, p a = q a) :
    l.filter p = l.filter q := by
  induction l with
  | nil => rfl
  | cons a t ih => simp [List.filter_cons, h a, ih]

theorem filterFilter (p q : α → Bool) (l : List α) :
    (l.filter p).filter q = l.filter (fun a => p a && q a) := by
  induction l with
  | nil => rfl
  | cons a t ih =>
    by_cases hp : p a = true
    · by_cases hq : q a = true
      · simp [List.filter_cons, hp, hq, ih]
      · simp [List.filter_cons, hp, Bool.eq_false_iff.mpr hq, ih]
    · simp [List.filter_cons, Bool.eq_false_iff.mpr hp, ih]

theorem applyLayers_eq_filter (layers : List (α → Bool)) (l : List α) :
    applyLayers layers l = l.filter (admits layers) := by
  induction layers generalizing l with
  | nil =>
    have h : l.filter (admits []) = l := by
      rw [filterExt l (admits []) (fun _ => true) (fun a => rfl)]
      exact List.filter_true l
    simp [applyLayers, h]
  | cons p ps ih =>
    have h1 : applyLayers (p :: ps) l = applyLayers ps (l.filter p) := rfl
    rw [h1, ih, filterFilter]
    exact filterExt l _ _ (fun a => by simp [admits])

theorem kwargLayersCallables (qs : List (String × (α → Bool))) :
    kwargLayers (qs.map (fun kv => (kv.1, PArg.callable kv.2))) = .ok (qs.map Prod.snd) := by
  induction qs with
  | nil => rfl
  | cons kv rest ih => simp [List.map_cons, kwargLayers, ih, Except.map]

theorem filterLayersCallables (ps : List (α → Bool)) (qs : List (String × (α → Bool))) :
    filterLayers (ps.map PArg.callable) (qs.map (fun kv => (kv.1, PArg.callable kv.2)))
      = .ok (ps ++ qs.map Prod.snd) := by
  induction ps with
  | nil => simpa [filterLayers] using kwargLayersCallables qs
  | cons p rest ih => simp [List.map_cons, filterLayers, ih, Except.map]

theorem excludeLayersCallables [DecidableEq α] (as : List (PArg α))
    (qs : List (String × (α → Bool))) :
    excludeLayers as (qs.map (fun kv => (kv.1, PArg.callable kv.2)))
      = .ok (as.map PArg.neTest ++ qs.map Prod.snd) := by
  induction as with
  | nil => simpa [excludeLayers] using kwargLayersCallables (α := α) qs
  | cons a rest ih => simp [List.map_cons, excludeLayers, ih, Except.map]

theorem allMapApply {β γ : Type} (l : List β) (g : β → γ → Bool) (a : γ) :
    (l.map g).all (fun p => p a) = l.all (fun x => g x a) := by
  induction l with
  | nil => rfl
  | cons x t ih => simp [List.all_cons, ih]

theorem countFilterNe [DecidableEq α] (t : List α) (v x : α) (hx : x ≠ v) :
    (t.filter (fun r => decide (r ≠ v))).count x = t.count x := by
  induction t with
  | nil => rfl
  | cons a t ih =>
    by_cases ha : a = v
    · rw [List.filter_cons_of_neg (by simp [ha]), ih,
        List.count_cons_of_ne (fun hc => hx (hc.trans ha))]
    · rw [List.filter_cons_of_pos (by simp [ha]), List.count_cons, List.count_cons, ih]

theorem exceptBindAssoc {ε β γ δ : Type} (e : Except ε β) (f : β → Except ε γ)
    (g : γ → Except ε δ) : (e.bind f).bind g = e.bind (fun x => (f x).bind g) := by
  cases e <;> rfl

theorem exceptBindPure {ε β : Type} (e : Except ε β) :
    e.bind (fun x => Except.ok x) = e := by
  cases e <;> rfl

theorem checkAttrSpec (v : Value) (comp : Obj → Except PyError Bool) (x : Obj) :
    v.checkAttr comp x = (v.applyAcc x).bind comp := by
  cases v with
  | mk g => cases g <;> rfl

theorem getattrApplyAcc (v : Value) (n : String) (x : Obj) :
    (v.getattr n).applyAcc x = (v.applyAcc x).bind (fun o => Obj.getattr o n) := by
  cases v with
  | mk g => cases g <;> rfl

theorem resolveChainCons (y : Obj) (n : String) (rest : List String) :
    resolveChain y (n :: rest) = (Obj.getattr y n).bind (fun z => resolveChain z rest) := by
  rfl

theorem chainApplyAcc (names : List String) (v : Value) (x : Obj) :
    (names.foldl Value.getattr v).applyAcc x
      = (v.applyAcc x).bind (fun y => resolveChain y names) := by
  induction names generalizing v with
  | nil =>
    have h : (fun y => resolveChain y ([] : List String)) = fun y => Except.ok y := rfl
    rw [List.foldl_nil, h, exceptBindPure]
  | cons n rest ih =>
    rw [List.foldl_cons, ih (v.getattr n), getattrApplyAcc, exceptBindAssoc]
    rfl

/-! ### Claim theorems -/

/-- C1: applying `filter(p1,…,pn)` — positional predicates `ps` and named
predicates `qs` — to a query view bound to the finite sequence `S` and
iterating the resulting view yields exactly the elements of `S`, in their
original order, for which every predicate (positional and named) returns
true: conjunction semantics with order preservation. -/
theorem filter_and_semantics (S : List α) (ps : List (α → Bool))
    (qs : List (String × (α → Bool))) :
    ((Query.root S []).filterOp (ps.map PArg.callable)
        (qs.map (fun kv => (kv.1, PArg.callable kv.2)))).map (fun q => (Query.iterate q).1)
      = .ok (S.filter (fun r => ps.all (fun p => p r) && qs.all (fun kv => kv.2 r))) := by
  rw [Query.filterOp, filterLayersCallables]
  have h1 : (Query.iterate (Query.node (Query.root S []) (ps ++ qs.map Prod.snd) [])).1
      = applyLayers (ps ++ qs.map Prod.snd) S := by
    simp [Query.iterate]
  simp only [Except.map, h1]
  rw [applyLayers_eq_filter]
  have h2 : ∀ a, admits (ps ++ qs.map Prod.snd) a
      = (ps.all (fun p => p a) && qs.all (fun kv => kv.2 a)) := by
    intro a
    simp [admits, List.all_append, allMapApply]
  rw [filterExt S _ _ h2]

/-- C5: chaining is associative in effect — `Q(S).filter(p1).filter(p2)`
yields the same elements, in the same order, as `Q(S).filter(p1, p2)`. -/
theorem filter_chain_assoc (S : List α) (p1 p2 : α → Bool) :
    ((Query.root S []).filterOp [PArg.callable p1] []).bind
        (fun q1 => (q1.filterOp [PArg.callable p2] []).map (fun q2 => (Query.iterate q2).1))
      = ((Query.root S []).filterOp [PArg.callable p1, PArg.callable p2] []).map
          (fun q => (Query.iterate q).1) := by
  rfl

/-- C6: `exclude(v)` with a bare positional literal `v` removes exactly the
elements of `S` equal to `v`, keeping every other element: the result is the
order-preserving subsequence of `S` of elements different from `v`, `v` does
not occur in it, and the multiplicity of every other element is unchanged. -/
theorem exclude_literal [DecidableEq α] (S : List α) (v : α) :
    ((Query.root S []).excludeOp [PArg.literal v] []).map (fun q => (Query.iterate q).1)
        = .ok (S.filter (fun r => decide (r ≠ v)))
      ∧ v ∉ S.filter (fun r => decide (r ≠ v))
      ∧ (∀ x : α, x ≠ v → (S.filter (fun r => decide (r ≠ v))).count x = S.count x)
      ∧ (S.filter (fun r => decide (r ≠ v))).Sublist S := by
  refine ⟨?_, ?_, ?_, List.filter_sublist S⟩
  · have h1 : (Query.iterate (Query.node (Query.root S []) [(PArg.literal v).neTest] [])).1
        = applyLayers [(PArg.literal v).neTest] S := by
      simp [Query.iterate]
    simp only [Query.excludeOp, excludeLayers, kwargLayers, Except.map, h1]
    have h2 : applyLayers [(PArg.literal v).neTest] S = S.filter (PArg.literal v).neTest := rfl
    rw [h2, filterExt S (PArg.literal v).neTest (fun r => decide (r ≠ v)) (fun a => rfl)]
  · simp [List.mem_filter]
  · intro x hx
    exact countFilterNe S v x hx

/-- Witness for C6 at concrete data: excluding the literal `2` from
`[1, 2, 4, 2]` removes both occurrences of `2` and preserves the
multiplicity of `4`. -/
theorem exclude_literal_witness :
    ((Query.root ([1, 2, 4, 2] : List Int) []).excludeOp [PArg.literal 2] []).map
        (fun q => (Query.iterate q).1)
        = .ok (([1, 2, 4, 2] : List Int).filter (fun r => decide (r ≠ 2)))
      ∧ (4 : Int) ≠ 2
      ∧ (([1, 2, 4, 2] : List Int).filter (fun r => decide (r ≠ 2))).count 4
          = ([1, 2, 4, 2] : List Int).count 4 :=
  ⟨(exclude_literal ([1, 2, 4, 2] : List Int) 2).1, by decide,
   (exclude_literal ([1, 2, 4, 2] : List Int) 2).2.2.1 4 (by decide)⟩

/-- C7 counterexample: the claim asserts that a positional *callable*
argument of `exclude` behaves like a `filter` predicate.  On the code, every
positional argument goes through the equality test `r != value`
(line 164), so a positional callable excludes nothing: excluding by the
predicate `r > 10` from `[1, 2]` keeps both elements, whereas filter
semantics for that predicate would keep none. -/
theorem exclude_positional_callable_cex :
    ((Query.root ([1, 2] : List Int) []).excludeOp
        [PArg.callable (fun r => decide (r > 10))] []).map (fun q => (Query.iterate q).1)
        = .ok [1, 2]
      ∧ ([1, 2] : List Int).filter (fun r => decide (r > 10)) = [] := by
  exact ⟨rfl, rfl⟩

/-- C7 (amended): in `exclude`, named predicates are not inverted — a named
predicate returning true keeps the element, exactly as in `filter` — while
*every* positional argument, callable or not, performs the equality-exclusion
test `r != value`; in particular a positional callable never removes any
ordinary element (`neTest` of a callable is constantly true). -/
theorem exclude_arg_semantics [DecidableEq α] (S : List α) (as : List (PArg α))
    (qs : List (String × (α → Bool))) :
    ((Query.root S []).excludeOp as (qs.map (fun kv => (kv.1, PArg.callable kv.2)))).map
        (fun q => (Query.iterate q).1)
        = .ok (S.filter (fun r => as.all (fun a => a.neTest r) && qs.all (fun kv => kv.2 r)))
      ∧ (∀ (f : α → Bool) (r : α), (PArg.callable f).neTest r = true) := by
  constructor
  · rw [Query.excludeOp, excludeLayersCallables]
    have h1 : (Query.iterate
          (Query.node (Query.root S []) (as.map PArg.neTest ++ qs.map Prod.snd) [])).1
        = applyLayers (as.map PArg.neTest ++ qs.map Prod.snd) S := by
      simp [Query.iterate]
    simp only [Except.map, h1]
    rw [applyLayers_eq_filter]
    have h2 : ∀ r, admits (as.map PArg.neTest ++ qs.map Prod.snd) r
        = (as.all (fun a => a.neTest r) && qs.all (fun kv => kv.2 r)) := by
      intro r
      simp [admits, List.all_append, allMapApply]
    rw [filterExt S _ _ h2]
  · intro f r
    rfl

/-- C3: iterating a query view a second time after a prior full iteration
yields the identical element sequence, replayed from the node's cache
(second conjunct: after a full pass the node's cache is exactly what the
pass yielded) without re-walking or re-invoking the underlying transform
(first conjunct: the second pass returns the same sequence and leaves the
entire chain state — every cache of every ancestor — unchanged). -/
theorem iterate_cache_replay (q : Query α) :
    Query.iterate (Query.iterate q).2 = Query.iterate q
      ∧ ((Query.iterate q).2).cache = (Query.iterate q).1 := by
  constructor
  · induction q with
    | root s c =>
      cases c with
      | nil =>
        cases s with
        | nil => rfl
        | cons a t => simp [Query.iterate]
      | cons a t => simp [Query.iterate]
    | node p layers c ih =>
      cases c with
      | cons a t => simp [Query.iterate]
      | nil =>
        have hstep : Query.iterate (Query.node p layers []) =
            (applyLayers layers (Query.iterate p).1,
             Query.node (Query.iterate p).2 layers (applyLayers layers (Query.iterate p).1)) := by
          simp [Query.iterate]
        rw [hstep]
        cases hres : applyLayers layers (Query.iterate p).1 with
        | nil =>
          have hstep2 : Query.iterate (Query.node (Query.iterate p).2 layers []) =
              (applyLayers layers (Query.iterate (Query.iterate p).2).1,
               Query.node (Query.iterate (Query.iterate p).2).2 layers
                 (applyLayers layers (Query.iterate (Query.iterate p).2).1)) := by
            simp [Query.iterate]
          rw [hstep2, ih, hres]
        | cons r t =>
          simp [Query.iterate]
  · cases q with
    | root s c =>
      cases c with
      | nil => simp [Query.iterate, Query.cache]
      | cons a t => simp [Query.iterate, Query.cache]
    | node p layers c =>
      cases c with
      | nil => simp [Query.iterate, Query.cache]
      | cons a t => simp [Query.iterate, Query.cache]

/-- C4 counterexample: the claim asserts that after a partial iteration
leaving a non-empty incomplete cache, a fresh iteration restarts evaluation
of the node's underlying source.  On the code, the fresh iteration takes the
`if self._cached_result:` branch and replays only the cached prefix: pulling
one element from a view bound to `[1, 2]` caches `[1]`, and the subsequent
fresh full iteration yields just `[1]` — the source element `2` is never
produced, although any restart of the underlying source would reach it. -/
theorem partial_iteration_cex :
    (Query.iterate (Query.pull (Query.root ([1, 2] : List Int) []) 1).2).1 = [1]
      ∧ ¬ ((2 : Int) ∈ (Query.iterate (Query.pull (Query.root ([1, 2] : List Int) []) 1).2).1) := by
  exact ⟨rfl, by decide⟩

/-- C4 (amended): after a partial iteration has left a non-empty (possibly
incomplete) cache on a node, a fresh iteration of that node replays exactly
the cached prefix and then stops: it neither resumes where the partial pass
stopped nor restarts the underlying effective-result source, and it changes
no state anywhere in the chain. -/
theorem partial_iteration_replay (q : Query α) (h : q.cache ≠ []) :
    Query.iterate q = (q.cache, q) := by
  cases q with
  | root s c =>
    cases c with
    | nil => exact absurd rfl h
    | cons a t => simp [Query.iterate, Query.cache]
  | node p layers c =>
    cases c with
    | nil => exact absurd rfl h
    | cons a t => simp [Query.iterate, Query.cache]

/-- Witness for the amended C4 at a concrete state: pulling one element from
a root view bound to `[1, 2]` leaves the non-empty cache `[1]`, and the fresh
iteration replays exactly that cache with no state change. -/
theorem partial_iteration_replay_witness :
    (Query.pull (Query.root ([1, 2] : List Int) []) 1).2.cache ≠ []
      ∧ Query.iterate (Query.pull (Query.root ([1, 2] : List Int) []) 1).2
          = ((Query.pull (Query.root ([1, 2] : List Int) []) 1).2.cache,
             (Query.pull (Query.root ([1, 2] : List Int) []) 1).2) :=
  ⟨by decide, partial_iteration_replay (Query.pull (Query.root ([1, 2] : List Int) []) 1).2 (by decide)⟩

/-- C10: first materialization of a derived view also populates the caches of
all its ancestors — on a chain none of whose caches has been touched, fully
iterating the leaf yields the leaf's effective sequence and leaves *every*
node of the chain holding exactly its own full output in its cache, because
each node's generator stack drains its parent through the parent's own
iteration protocol. -/
theorem iterate_materializes_ancestors (q : Query α) (h : q.cachesEmpty = true) :
    Query.iterate q = (q.freshPass, q.materialized) := by
  induction q with
  | root s c =>
    cases c with
    | nil => simp [Query.iterate, Query.freshPass, Query.materialized]
    | cons a t => simp [Query.cachesEmpty] at h
  | node p layers c ih =>
    cases c with
    | cons a t => simp [Query.cachesEmpty] at h
    | nil =>
      have hp : p.cachesEmpty = true := by simpa [Query.cachesEmpty] using h
      have hstep : Query.iterate (Query.node p layers []) =
          (applyLayers layers (Query.iterate p).1,
           Query.node (Query.iterate p).2 layers (applyLayers layers (Query.iterate p).1)) := by
        simp [Query.iterate]
      rw [hstep, ih hp]
      simp [Query.freshPass, Query.materialized]

/-- Witness for C10 at a concrete fresh chain: filtering `[1, 2, 3]` by
`r > 1` and fully iterating the derived view caches `[2, 3]` on the child and
`[1, 2, 3]` on the root. -/
theorem iterate_materializes_ancestors_witness :
    (Query.node (Query.root ([1, 2, 3] : List Int) []) [fun r => decide (r > 1)] []).cachesEmpty
        = true
      ∧ Query.iterate
            (Query.node (Query.root ([1, 2, 3] : List Int) []) [fun r => decide (r > 1)] [])
          = ((Query.node (Query.root ([1, 2, 3] : List Int) [])
                [fun r => decide (r > 1)] []).freshPass,
             (Query.node (Query.root ([1, 2, 3] : List Int) [])
                [fun r => decide (r > 1)] []).materialized) :=
  ⟨rfl, iterate_materializes_ancestors
    (Query.node (Query.root ([1, 2, 3] : List Int) []) [fun r => decide (r > 1)] []) rfl⟩

/-- C9 counterexample: the claim asserts that every node — including a
freshly constructed unbound root — always has a resolvable, non-absent
effective result.  A fresh `Query()` has `_result = None` and no parent, so
its `result` property resolves to `None` (absent). -/
theorem unbound_root_result_cex :
    (QueryLink.orphan (none : Option (List Int))).result = none := rfl

/-- C9 (amended): a node's effective result is non-absent exactly when the
node itself or some ancestor has its own result set (first conjunct); when a
node's own result is set it takes precedence and the read-through to the
parent is not consulted (second conjunct).  A freshly constructed unbound
root therefore resolves to an absent result. -/
theorem result_resolution_amended :
    (∀ (q : QueryLink α), q.result.isSome = q.anyBound)
      ∧ (∀ (r : List α) (p : QueryLink α), (QueryLink.child (some r) p).result = some r) := by
  constructor
  · intro q
    induction q with
    | orphan r => cases r <;> rfl
    | child r p ih =>
      cases r with
      | some v => simp [QueryLink.result, QueryLink.anyBound]
      | none => simpa [QueryLink.result, QueryLink.anyBound] using ih
  · intro r p
    rfl

/-- C2: a predicate built from a `k`-deep attribute chain on the placeholder
(`value.a1.…​.ak > c`), applied to an element `x`, resolves the chain by
applying each attribute lookup in order starting from `x` and compares the
resolved value with the literal `c` (first conjunct, for every chain, hence
with no fixed depth limit); and each attribute access on a `Value` returns a
new `Value` whose accessor composes the parent accessor with one more lookup
step (second conjunct). -/
theorem value_chain_depth :
    (∀ (names : List String) (lit x : Obj),
        Value.gt (chainValue names) lit x
          = (resolveChain x names).bind (fun v => Obj.gtObj v lit))
      ∧ (∀ (v : Value) (n : String) (x : Obj),
        (v.getattr n).applyAcc x = (v.applyAcc x).bind (fun o => Obj.getattr o n)) := by
  constructor
  · intro names lit x
    have hgt : Value.gt (chainValue names) lit x
        = ((chainValue names).applyAcc x).bind (fun v => Obj.gtObj v lit) :=
      checkAttrSpec (chainValue names) (fun v => Obj.gtObj v lit) x
    have hacc : (chainValue names).applyAcc x = resolveChain x names := by
      have h2 := chainApplyAcc names ⟨none⟩ x
      simpa [Value.applyAcc] using h2
    rw [hgt, hacc]
  · intro v n x
    exact getattrApplyAcc v n x

/-- C8: if a predicate's accessor chain requests an attribute missing on a
concrete element, the `AttributeError` surfaces at predicate invocation time,
while the filtered view is being iterated, and propagates to the caller
uncaught: iterating the filter generator over a sequence whose prefix
evaluates cleanly and which then contains the offending element produces
exactly that error.  Building the chain (`chainValue`) and the predicate
(`Value.gt`) are total operations that touch no data — the error can only
arise from `Value.gt … x` during iteration. -/
theorem attribute_error_at_invocation (names : List String) (lit : Obj)
    (good : List Obj) (bad : Obj) (rest : List Obj) (e : PyError)
    (hgood : ∀ y ∈ good, ∃ b, Value.gt (chainValue names) lit y = .ok b)
    (hbad : Value.gt (chainValue names) lit bad = .error e) :
    iterFiltered (good ++ bad :: rest) (Value.gt (chainValue names) lit) = .error e := by
  induction good with
  | nil =>
    simp [iterFiltered, hbad, Except.bind]
  | cons y ys ih =>
    obtain ⟨b, hb⟩ := hgood y (by simp)
    have ih2 := ih (fun z hz => hgood z (by simp [hz]))
    simp [iterFiltered, hb, ih2, Except.map, Except.bind]

/-- Witness for C8 at concrete data: the predicate `value.prop > 2` evaluates
cleanly on an object with attribute `prop`, errors with
`AttributeError("prop")` on a bare integer, and iterating the filtered view
over both propagates exactly that error. -/
theorem attribute_error_at_invocation_witness :
    (∀ y ∈ [Obj.inst [( "prop", Obj.int 5)]], ∃ b,
        Value.gt (chainValue [ "prop"]) (Obj.int 2) y = .ok b)
      ∧ Value.gt (chainValue [ "prop"]) (Obj.int 2) (Obj.int 0)
          = .error (.attributeError "prop")
      ∧ iterFiltered ([Obj.inst [( "prop", Obj.int 5)]] ++ Obj.int 0 :: [])
            (Value.gt (chainValue [ "prop"]) (Obj.int 2))
          = .error (.attributeError "prop") := by
  refine ⟨?_, rfl, ?_⟩
  · intro y hy
    simp at hy
    subst hy
    exact ⟨true, rfl⟩
  · exact attribute_error_at_invocation [ "prop"] (Obj.int 2)
      [Obj.inst [( "prop", Obj.int 5)]] (Obj.int 0) [] (.attributeError "prop")
      (fun y hy => by
        simp at hy
        subst hy
        exact ⟨true, rfl⟩) rfl

/-- Sanity check mirroring the source's own assertions (lines 179-197):
filtering `[1, 2, 3, 4, 5]` by `value > 2` yields `[3, 4, 5]`, a further
`filter(value > 3)` yields `[4, 5]`, and a further `exclude(5)` yields
`[4]`. -/
theorem scenario_reference_usage :
    (Query.iterate (Query.node (Query.root ([1, 2, 3, 4, 5] : List Int) [])
        [fun r => decide (r > 2)] [])).1 = [3, 4, 5]
      ∧ (Query.iterate (Query.node (Query.node (Query.root ([1, 2, 3, 4, 5] : List Int) [])
          [fun r => decide (r > 2)] []) [fun r => decide (r > 3)] [])).1 = [4, 5]
      ∧ (Query.iterate (Query.node (Query.node (Query.node
          (Query.root ([1, 2, 3, 4, 5] : List Int) [])
          [fun r => decide (r > 2)] []) [fun r => decide (r > 3)] [])
          [(PArg.literal (5 : Int)).neTest] [])).1 = [4] := by
  exact ⟨rfl, rfl, rfl⟩

end Quandry
